import Mathlib

/-!
Shallow embedding of the query-to-context pipeline of the strava_agent
repository, together with proofs about the claims of its specification.

Conventions of the embedding:

* Python strings are modelled as `List Char` (`Str`); `sl` turns a Lean
  string literal into one.  Python `str.strip()` is `pyStrip`, `in` on
  strings is `subIn`, `str.lower()` is `lowerStr`, and `<`/`>` on strings
  is the lexicographic order on `List Char` (Mathlib's `List.Lex` order,
  which agrees with Python's code-point lexicographic comparison).
* Python `float` metadata values are modelled as `ℚ`; a metadata entry
  that may be absent is an `Option`.
* Fallible Python code (an uncaught `TypeError`/`ValueError`) is
  modelled with `Except Unit` / `Option`.
* `list.sort(key=k, reverse=True)` (a stable descending sort) is
  modelled by `List.insertionSort (fun a b => k b ≤ k a)`, which is a
  stable sort placing greater keys first, hence computes the same list.
-/

/-! ### Basic string machinery -/

abbrev Str := List Char

def sl (s : String) : Str := s.toList

/-- Python whitespace, the set stripped by `str.strip()`. -/
def isWsC (c : Char) : Bool :=
  c = ' ' || c = '\t' || c = '\n' || c = '\r' || c = '\x0b' || c = '\x0c'

/-- Python `str.strip()`: remove leading and trailing whitespace. -/
def pyStrip (s : Str) : Str :=
  ((s.dropWhile isWsC).reverse.dropWhile isWsC).reverse

/-- Python `pat in s` for strings: contiguous substring test. -/
def subIn (pat : Str) : Str → Bool
  | [] => pat.isEmpty
  | c :: cs => pat.isPrefixOf (c :: cs) || subIn pat cs

/-- Python `str.lower()` (ASCII case folding suffices for this code base). -/
def lowerStr (s : Str) : Str := s.map Char.toLower

/-! ### Data model of the retrieval engine

`RMeta` models the metadata mapping of a stored ChromaDB document as the
retrieval code of `ChromaManager` reads it: `name` and `date` are always
present string fields (every document written by `LLMClient.create_documents`
carries them), while `type`, `distance` and `avg_hr` may be absent, which is
what the `meta.get(...)` defaults in `retrieve_runs` are for. -/

structure RMeta where
  name : Str
  ty : Option Str
  distance : Option ℚ
  date : Str
  avg_hr : Option ℚ
deriving DecidableEq, Repr

structure RDoc where
  content : Str
  meta : RMeta
deriving DecidableEq, Repr

/-- The structured query produced by the interpreter
(`QueryFilter`); every field is optional (`null` in Python). -/
structure Query where
  ty : Option Str := none
  min_avg_hr : Option ℚ := none
  max_avg_hr : Option ℚ := none
  distance_km : Option ℚ := none
  start_date : Option Str := none
  end_date : Option Str := none
  last_n_runs : Option Nat := none
  run_names : Option (List Str) := none
deriving DecidableEq, Repr

/-! ### The in-process post-filter of `ChromaManager.retrieve_runs`

Each guard models one `continue`-condition of the loop in
`chroma_manager.py` lines 78-126.  The Python guards all begin with
`query.get(f) and query[f] is not None`, i.e. they fire only when the
field is present AND truthy (`0`, `0.0`, `""`, `[]` are falsy). -/

/-- Models `meta.get("type") != query["type"]` under a truthy `type` field
(`t?` is `query["type"]`). -/
def typeExcl (t? : Option Str) (m : RMeta) : Bool :=
  match t? with
  | some t => !t.isEmpty && !(m.ty == some t)
  | none => false

/-- Models `meta.get("avg_hr", 0) < query["min_avg_hr"]` under a truthy bound:
an absent `avg_hr` is compared as `0`. -/
def minHrExcl (v? : Option ℚ) (m : RMeta) : Bool :=
  match v? with
  | some v => !(v == 0) && decide (m.avg_hr.getD 0 < v)
  | none => false

/-- Models `meta.get("avg_hr", 9999) > query["max_avg_hr"]` under a truthy bound:
an absent `avg_hr` is compared as `9999`. -/
def maxHrExcl (v? : Option ℚ) (m : RMeta) : Bool :=
  match v? with
  | some v => !(v == 0) && decide (v < m.avg_hr.getD 9999)
  | none => false

/-- Models `meta.get("distance") < query["distance_km"]` under a truthy bound.
`meta.get("distance")` has no default: an absent distance makes the
comparison `None < float`, an uncaught `TypeError` (`Except.error`). -/
def distExcl (v? : Option ℚ) (m : RMeta) : Except Unit Bool :=
  match v? with
  | some v =>
    if v == 0 then .ok false
    else
      match m.distance with
      | some d => .ok (decide (d < v))
      | none => .error ()
  | none => .ok false

/-- Models `meta.get("date") < query["start_date"]`: lexical string comparison. -/
def startExcl (s? : Option Str) (m : RMeta) : Bool :=
  match s? with
  | some s => !s.isEmpty && decide (m.date < s)
  | none => false

/-- Models `meta.get("date") > query["end_date"]`: lexical string comparison. -/
def endExcl (e? : Option Str) (m : RMeta) : Bool :=
  match e? with
  | some e => !e.isEmpty && decide (e < m.date)
  | none => false

/-- A document's name matches a requested name list iff ANY requested name
is a case-insensitive substring of the stored name. -/
def nameMatches (ns : List Str) (m : RMeta) : Bool :=
  ns.any (fun n => subIn (lowerStr n) (lowerStr m.name))

/-- The `run_names` guard of the post-filter (truthy list only). -/
def nameExcl (ns? : Option (List Str)) (m : RMeta) : Bool :=
  match ns? with
  | some ns => !ns.isEmpty && !nameMatches ns m
  | none => false

/-- One pass of the post-filter loop body over a single document, in the
source's guard order; `.ok false` means the document is skipped. -/
def passesEx (q : Query) (d : RDoc) : Except Unit Bool :=
  if typeExcl q.ty d.meta then .ok false
  else if minHrExcl q.min_avg_hr d.meta then .ok false
  else if maxHrExcl q.max_avg_hr d.meta then .ok false
  else
    match distExcl q.distance_km d.meta with
    | .error e => .error e
    | .ok true => .ok false
    | .ok false =>
      if startExcl q.start_date d.meta then .ok false
      else if endExcl q.end_date d.meta then .ok false
      else if nameExcl q.run_names d.meta then .ok false
      else .ok true

/-- The post-filter loop of `retrieve_runs` over the candidate pool. -/
def filterEx (q : Query) : List RDoc → Except Unit (List RDoc)
  | [] => .ok []
  | d :: ds => do
    let b ← passesEx q d
    let rest ← filterEx q ds
    pure (if b then d :: rest else rest)

/-- Key relation for `filtered_docs.sort(key=..get("date",""), reverse=True)`:
stable descending sort by the raw date string. -/
def dateGe (a b : RDoc) : Prop := b.meta.date ≤ a.meta.date

instance : DecidableRel dateGe := fun a b =>
  inferInstanceAs (Decidable (b.meta.date ≤ a.meta.date))

instance : IsTotal RDoc dateGe := ⟨fun a b => le_total b.meta.date a.meta.date⟩

instance : IsTrans RDoc dateGe := ⟨fun _ _ _ h1 h2 => le_trans h2 h1⟩

/-- Models `ChromaManager.retrieve_runs` (lines 55-133), with the candidate pool
returned by the vector store's retriever passed in as `pool` (the retriever
is an external component; with an empty query string it performs
metadata-filtered enumeration of up to `3 * top_k` documents). -/
def retrieveRuns (pool : List RDoc) (q : Query) (topK : Nat) :
    Except Unit (List RDoc) := do
  let fd ← filterEx q pool
  let fd :=
    match q.last_n_runs with
    | some n => if n ≠ 0 then (List.insertionSort dateGe fd).take n else fd
    | none => fd
  pure (fd.take topK)

/-- Models `ChromaManager.get_runs_by_names` (lines 135-161): full enumeration,
keep the documents whose stored name contains ANY requested name as a
case-insensitive substring. -/
def getRunsByNames (store : List RDoc) (names : List Str) : List RDoc :=
  store.filter (fun d => nameMatches names d.meta)

/-- The dispatch of `document_retriever_agent` (workflow.py lines 313-319):
a truthy `run_names` routes to `get_runs_by_names`, anything else to
`retrieve_runs` with the default cap `top_k = 20`. -/
def tier1Dispatch (store : List RDoc) (q : Query) : Except Unit (List RDoc) :=
  match q.run_names with
  | some ns => if !ns.isEmpty then .ok (getRunsByNames store ns) else retrieveRuns store q 20
  | none => retrieveRuns store q 20

/-! ### `datetime.strptime(date_str, "%Y-%m-%d %H:%M:%S")`

`ChromaManager.get_latest_runs` sorts with a key that is the parsed
datetime when the date string parses and the raw string otherwise.  The
parser below models CPython's `_strptime` regex for this format
(`%Y` = 4 digits; the 1-2 digit fields use the alternations
`1[0-2]|0[1-9]|[1-9]` etc.), the "unconverted data remains" check, and
`datetime`'s calendar/range validation. -/

def digitVal (c : Char) : Nat := c.toNat - 48

def expectC (c : Char) : Str → Option Str
  | d :: rest => if d = c then some rest else none
  | [] => none

def pYear : Str → Option (Nat × Str)
  | a :: b :: c :: d :: rest =>
    if a.isDigit && b.isDigit && c.isDigit && d.isDigit then
      some (digitVal a * 1000 + digitVal b * 100 + digitVal c * 10 + digitVal d, rest)
    else none
  | _ => none

/-- Models `%m` = `1[0-2]|0[1-9]|[1-9]`. -/
def pMonth : Str → Option (Nat × Str)
  | c :: d :: rest =>
    if c = '1' && ('0' ≤ d && d ≤ '2') then some (10 + digitVal d, rest)
    else if c = '0' && ('1' ≤ d && d ≤ '9') then some (digitVal d, rest)
    else if '1' ≤ c && c ≤ '9' then some (digitVal c, d :: rest)
    else none
  | [c] => if '1' ≤ c && c ≤ '9' then some (digitVal c, []) else none
  | [] => none

/-- Models `%d` = `3[01]|[12]\d|0[1-9]|[1-9]`. -/
def pDay : Str → Option (Nat × Str)
  | c :: d :: rest =>
    if c = '3' && (d = '0' || d = '1') then some (30 + digitVal d, rest)
    else if (c = '1' || c = '2') && d.isDigit then
      some (10 * digitVal c + digitVal d, rest)
    else if c = '0' && ('1' ≤ d && d ≤ '9') then some (digitVal d, rest)
    else if '1' ≤ c && c ≤ '9' then some (digitVal c, d :: rest)
    else none
  | [c] => if '1' ≤ c && c ≤ '9' then some (digitVal c, []) else none
  | [] => none

/-- Models `%H` = `2[0-3]|[0-1]\d|\d`. -/
def pHour : Str → Option (Nat × Str)
  | c :: d :: rest =>
    if c = '2' && ('0' ≤ d && d ≤ '3') then some (20 + digitVal d, rest)
    else if (c = '0' || c = '1') && d.isDigit then
      some (10 * digitVal c + digitVal d, rest)
    else if c.isDigit then some (digitVal c, d :: rest)
    else none
  | [c] => if c.isDigit then some (digitVal c, []) else none
  | [] => none

/-- Models `%M` and `%S` = `[0-5]\d|\d`. -/
def pMin : Str → Option (Nat × Str)
  | c :: d :: rest =>
    if ('0' ≤ c && c ≤ '5') && d.isDigit then
      some (10 * digitVal c + digitVal d, rest)
    else if c.isDigit then some (digitVal c, d :: rest)
    else none
  | [c] => if c.isDigit then some (digitVal c, []) else none
  | [] => none

def isLeap (y : Nat) : Bool := y % 4 == 0 && (y % 100 != 0 || y % 400 == 0)

def daysInMonth (y m : Nat) : Nat :=
  if m = 2 then (if isLeap y then 29 else 28)
  else if m = 4 || m = 6 || m = 9 || m = 11 then 30
  else 31

/-- Models `datetime.strptime(s, "%Y-%m-%d %H:%M:%S")`, as a total function into
`Option`: `none` is a `ValueError`. -/
def parseDT (s : Str) : Option (Nat × Nat × Nat × Nat × Nat × Nat) := do
  let (y, r1) ← pYear s
  let r2 ← expectC '-' r1
  let (mo, r3) ← pMonth r2
  let r4 ← expectC '-' r3
  let (d, r5) ← pDay r4
  let r6 ← expectC ' ' r5
  let (h, r7) ← pHour r6
  let r8 ← expectC ':' r7
  let (mi, r9) ← pMin r8
  let r10 ← expectC ':' r9
  let (se, r11) ← pMin r10
  if r11 = [] ∧ 1 ≤ y ∧ d ≤ daysInMonth y mo then pure (y, mo, d, h, mi, se)
  else none

/-- Mixed-radix encoding of a parsed datetime; it is order-preserving
(components are within their radix bounds), so comparing encodings is
comparing datetimes. -/
def encodeDT : Nat × Nat × Nat × Nat × Nat × Nat → Nat
  | (y, mo, d, h, mi, se) => ((((y * 13 + mo) * 32 + d) * 24 + h) * 60 + mi) * 60 + se

/-- The sort key of `get_latest_runs` when the document's date parses. -/
def dtKey (d : RDoc) : Nat := ((parseDT d.meta.date).map encodeDT).getD 0

/-- Stable descending comparison by parsed datetime. -/
def dtGe (a b : RDoc) : Prop := dtKey b ≤ dtKey a

instance : DecidableRel dtGe := fun a b => inferInstanceAs (Decidable (dtKey b ≤ dtKey a))

instance : IsTotal RDoc dtGe := ⟨fun a b => le_total (dtKey b) (dtKey a)⟩

instance : IsTrans RDoc dtGe := ⟨fun _ _ _ h1 h2 => le_trans h2 h1⟩

/-- Models `ChromaManager.get_latest_runs` (lines 163-196).  The sort key
`get_date_key` yields a `datetime` for documents whose date parses and the
raw string otherwise; Python can only sort the list if the keys are
mutually comparable, so a store mixing parseable and unparseable dates
(necessarily with at least two documents) raises a `TypeError`
(`Except.error`), while a uniform store sorts descending - by parsed
datetime when all dates parse, by raw string when none does. -/
def getLatestRuns (store : List RDoc) (n : Nat) : Except Unit (List RDoc) :=
  if store.isEmpty then .ok []
  else if store.all (fun d => (parseDT d.meta.date).isSome) then
    .ok ((List.insertionSort dtGe store).take n)
  else if store.all (fun d => (parseDT d.meta.date).isNone) then
    .ok ((List.insertionSort dateGe store).take n)
  else .error ()

/-- The retrieval step of `document_retriever_agent` (workflow.py lines
311-335): tier-1/tier-2 dispatch, then the zero-match fallback to
`get_latest_runs(5)`. -/
def documentRetriever (store : List RDoc) (q : Query) :
    Except Unit (List RDoc) := do
  let r ← tier1Dispatch store q
  if r.isEmpty then getLatestRuns store 5 else pure r

/-! ### Sample documents used by concrete witnesses and counterexamples -/

/-- A stored document metadata whose `avg_hr` is absent. -/
def mNoHr : RMeta :=
  ⟨sl "Morning Run", some (sl "Easy"), some 10, sl "2024-03-01 10:00:00", none⟩

/-- A stored document with a parseable date. -/
def dGood : RDoc :=
  ⟨sl "summary text", ⟨sl "Morning Run", some (sl "Easy"), some 10,
    sl "2024-03-01 10:00:00", some 150⟩⟩

/-- A stored document whose date does not parse as `%Y-%m-%d %H:%M:%S`. -/
def dBad : RDoc :=
  ⟨sl "summary text", ⟨sl "Manual Run", some (sl "Easy"), some 5,
    sl "not a date", some 140⟩⟩

/-! ### Context serializer / deserializer (`docs_to_context`,
`context_to_dataframe`)

For these two functions the relevant document content is textual, so a
stored document is modelled by the `str()`-renderings of the metadata
fields the serializer interpolates (`SMeta`, all `Str`) plus the lines of
its `page_content` (`pageLines`; Python splits the content on "\n", so a
line list is the faithful shape). -/

structure SMeta where
  date : Str
  name : Str
  distance : Str
  pace : Str
  avg_hr : Str
  elevation_gain : Str
  ty : Str
deriving DecidableEq, Repr

structure SDoc where
  meta : SMeta
  pageLines : List Str
deriving DecidableEq, Repr

/-- Models `sep.join(pieces)` for a one-character separator. -/
def joinC (sep : Char) : List Str → Str
  | [] => []
  | [p] => p
  | p :: q :: ps => p ++ sep :: joinC sep (q :: ps)

/-- Models `"\n".join(pieces)`. -/
def joinNl : List Str → Str := joinC '\n' 

/-- The summary line built for one document by `docs_to_context`
(chroma_manager.py lines 208-215); note the leading newline of the
f-string. -/
def headerBody (m : SMeta) : Str :=
  m.date ++ sl " | " ++ m.name ++ sl " | Distance: " ++ m.distance ++
    sl " km | Pace: " ++ m.pace ++ sl " min/km | Avg HR: " ++ m.avg_hr ++
    sl " bpm | Elevation: " ++ m.elevation_gain ++ sl " m | Type: " ++ m.ty

/-- Models `ChromaManager.docs_to_context` (lines 198-225): one summary line per
document (with its leading `"\n"`), optionally followed by the per-KM
breakdown, which is the page content minus its first 8 summary lines. -/
def docsToContext (docs : List SDoc) (includePerKm : Bool) : Str :=
  if docs.isEmpty then sl "No run data available."
  else
    joinNl (docs.flatMap (fun d =>
      ('\n' :: headerBody d.meta) ::
        (if includePerKm then [joinNl (d.pageLines.drop 8)] else [])))

/-- Models `s.split(sep)` for a one-character separator (also models
`str.splitlines` for strings whose only line breaks are `"\n"`; the two
differ only on trailing/empty-line artifacts, which the parser skips). -/
def splitOnC (sep : Char) : Str → List Str
  | [] => [[]]
  | c :: cs =>
    let r := splitOnC sep cs
    if c = sep then [] :: r
    else (c :: r.headD []) :: r.tail

/-- The character class `[\d.]` of the deserializer's regexes. -/
def numChar (c : Char) : Bool := c.isDigit || c = '.'

/-- Models `re.findall(r"[\d.]+", seg)[0]`: the first maximal run of `[\d.]`
characters, if any. -/
def firstNumTok : Str → Option Str
  | [] => none
  | c :: cs =>
    if numChar c then some (c :: cs.takeWhile numChar) else firstNumTok cs

/-- Whether Python `float()` accepts a token made of digits and dots:
at most one dot and at least one digit. -/
def isPyFloat (t : Str) : Bool :=
  !t.isEmpty && decide (t.count '.' ≤ 1) && t.any Char.isDigit

/-- Models `re.match(r"^\d{4}-\d{2}-\d{2}", line)`. -/
def isDateStart : Str → Bool
  | a :: b :: c :: d :: k1 :: e :: f :: k2 :: g :: h :: _ =>
    a.isDigit && b.isDigit && c.isDigit && d.isDigit && k1 == '-' &&
      e.isDigit && f.isDigit && k2 == '-' && g.isDigit && h.isDigit
  | _ => false

/-- The `current_run` dict of `context_to_dataframe`.  Numeric fields are
kept as their source tokens (strings); `float()`-conversion failures are
modelled where they occur. -/
structure CHeader where
  date : Str
  run_name : Str
  run_type : Str
  distance : Str
  avg_pace : Str
  avg_hr : Str
  total_elevation : Str
deriving DecidableEq, Repr

/-- Models `current_run = {}`: every `current_run.get` default of the row
constructor (`""` for the strings, `0` for the numbers). -/
def initHeader : CHeader := ⟨[], [], [], sl "0", sl "0", sl "0", sl "0"⟩

/-- A header segment value:
`float(re.findall(r"[\d.]+", seg)[0]) if re.findall(...) else 0`; a first
token that `float()` rejects is an uncaught `ValueError` (`none`). -/
def hfield (seg : Str) : Option Str :=
  match firstNumTok seg with
  | some tok => if isPyFloat tok then some tok else none
  | none => some (sl "0")

/-- Models `parts[6].strip().replace("Type: ", "")`: remove every occurrence. -/
def removeTypeTok : Str → Str
  | 'T' :: 'y' :: 'p' :: 'e' :: ':' :: ' ' :: cs => removeTypeTok cs
  | c :: cs => c :: removeTypeTok cs
  | [] => []

inductive HRes where
  | ok (h : CHeader)
  | skip
  | fail
deriving DecidableEq, Repr

/-- The header-line branch of `context_to_dataframe` (lines 241-261):
`skip` when fewer than 7 pipe-separated parts (the old `current_run` is
kept), `fail` on a `float()` `ValueError`. -/
def parseHeader (t : Str) : HRes :=
  let parts := splitOnC '|' t
  if 7 ≤ parts.length then
    match hfield (parts.getD 2 []), hfield (parts.getD 3 []),
        hfield (parts.getD 4 []), hfield (parts.getD 5 []) with
    | some dist, some pace, some hr, some elev =>
      .ok ⟨pyStrip (parts.getD 0 []), pyStrip (parts.getD 1 []),
        removeTypeTok (pyStrip (parts.getD 6 [])), dist, pace, hr, elev⟩
    | _, _, _, _ => .fail
  else .skip

structure KmF where
  km : Nat
  pace : Str
  hr : Str
  power : Str
  elevation_gain : Str
deriving DecidableEq, Repr

/-- Models `re.findall(r"LABEL ([\w.]-class)+", line)[0]`: scan for the first
position where `pat` matches followed by at least one `cls` character and
return that maximal run. -/
def findTokAfter (pat : Str) (cls : Char → Bool) : Str → Option Str
  | [] => none
  | c :: cs =>
    if pat.isPrefixOf (c :: cs) then
      match ((c :: cs).drop pat.length).takeWhile cls with
      | [] => findTokAfter pat cls cs
      | tok => some tok
    else findTokAfter pat cls cs

def digitsToNat (s : Str) : Nat := s.foldl (fun n c => n * 10 + digitVal c) 0

/-- A labelled per-KM value: absent group defaults to `0`; a present token
`float()` rejects raises inside the `try` (modelled `none`, which drops
the row). -/
def labeledField (pat : Str) (t : Str) : Option Str :=
  match findTokAfter pat numChar t with
  | some tok => if isPyFloat tok then some tok else none
  | none => some (sl "0")

/-- The per-KM branch of `context_to_dataframe` (lines 264-305): the row
is dropped (`none`) when `KM (\d+)` has no match (`IndexError`) or a
labelled numeric conversion raises. -/
def parseKmLine (t : Str) : Option KmF := do
  let kmTok ← findTokAfter (sl "KM ") Char.isDigit t
  let pace ← labeledField (sl "Pace ") t
  let hr ← labeledField (sl "HR ") t
  let power ← labeledField (sl "Power ") t
  let eg ← labeledField (sl "Elevation Gain ") t
  pure ⟨digitsToNat kmTok, pace, hr, power, eg⟩

/-- One output row: its own per-KM fields plus the parent activity's
summary fields (the denormalized join of the source's `rows.append`). -/
structure PRow where
  date : Str
  run_name : Str
  run_type : Str
  km : Nat
  pace : Str
  hr : Str
  power : Str
  elevation_gain : Str
  distance : Str
  avg_hr : Str
  avg_pace : Str
  total_elevation : Str
deriving DecidableEq, Repr

def attachHeader (h : CHeader) (k : KmF) : PRow :=
  ⟨h.date, h.run_name, h.run_type, k.km, k.pace, k.hr, k.power,
    k.elevation_gain, h.distance, h.avg_hr, h.avg_pace, h.total_elevation⟩

/-- The line loop of `context_to_dataframe` (lines 235-305), as a fold
with the `current_run` state. -/
def ctdLines (st : CHeader) : List Str → Option (List PRow)
  | [] => some []
  | l :: ls =>
    if (pyStrip l).isEmpty then ctdLines st ls
    else if isDateStart (pyStrip l) then
      match parseHeader (pyStrip l) with
      | .ok h => ctdLines h ls
      | .skip => ctdLines st ls
      | .fail => none
    else if (sl "KM").isPrefixOf (pyStrip l) then
      match parseKmLine (pyStrip l) with
      | some kf => (ctdLines st ls).map (fun rs => attachHeader st kf :: rs)
      | none => ctdLines st ls
    else ctdLines st ls

/-- Models `ChromaManager.context_to_dataframe` (lines 227-311), producing the
flat row list of the dataframe (`none` models an uncaught exception). -/
def contextToDataframe (ctx : Str) : Option (List PRow) :=
  ctdLines initHeader (splitOnC '\n' ctx)

/-! ### String lemmas for the round-trip proof -/

/-- A string whose first and last characters (when present) are not
whitespace; such a string is `strip`-invariant. -/
def edgeOk (s : Str) : Bool :=
  (match s.head? with | some c => !isWsC c | none => true) &&
  (match s.getLast? with | some c => !isWsC c | none => true)

/-! ### Well-formedness of serialized documents

These predicates capture when a stored document's rendered metadata and
per-KM breakdown lines follow the fixed textual layout of §4.5 (the layout
`docs_to_context` writes and `context_to_dataframe` inverts). -/

/-- The rendering of a numeric metadata field: a nonempty `[\d.]` token
with at most one dot and at least one digit (what `float()` re-accepts). -/
def floatTokOk (t : Str) : Bool :=
  !t.isEmpty && t.all numChar && decide (t.count '.' ≤ 1) && t.any Char.isDigit

/-- A free-text field that survives the header round trip: no pipe (the
field separator), no newline, and no whitespace at the edges. -/
def cleanStr (s : Str) : Bool :=
  s.all (fun c => !(c = '|') && !(c = '\n')) && edgeOk s

def wfSMeta (m : SMeta) : Bool :=
  isDateStart m.date && cleanStr m.date && cleanStr m.name &&
    floatTokOk m.distance && floatTokOk m.pace && floatTokOk m.avg_hr &&
    floatTokOk m.elevation_gain && cleanStr m.ty && !m.ty.isEmpty &&
    !(subIn (sl "Type: ") m.ty)

/-- A per-KM breakdown line: newline-free, `KM`-prefixed after stripping,
and accepted by the per-KM parser. -/
def wfKmLine (l : Str) : Bool :=
  l.all (fun c => !(c = '\n')) && (sl "KM").isPrefixOf (pyStrip l) &&
    (parseKmLine (pyStrip l)).isSome

def wfSDoc (d : SDoc) : Bool :=
  wfSMeta d.meta && (d.pageLines.drop 8).all wfKmLine

/-- The `current_run` dict a well-formed header line produces. -/
def headerOf (m : SMeta) : CHeader :=
  ⟨m.date, m.name, m.ty, m.distance, m.pace, m.avg_hr, m.elevation_gain⟩

/-- The rows one serialized document contributes to the deserialized
dataframe. -/
def docRows (d : SDoc) : List PRow :=
  (d.pageLines.drop 8).filterMap
    (fun l => (parseKmLine (pyStrip l)).map (attachHeader (headerOf d.meta)))

/-- The rows a header-free line block contributes under state `st`. -/
def genRows (st : CHeader) (ls : List Str) : List PRow :=
  ls.filterMap (fun l =>
    if (sl "KM").isPrefixOf (pyStrip l) then
      (parseKmLine (pyStrip l)).map (attachHeader st)
    else none)

/-- The pipe-separated segments of a well-formed header line. -/
def headerSegs (m : SMeta) : List Str :=
  [m.date ++ [' '], ' ' :: (m.name ++ [' ']),
    sl " Distance: " ++ m.distance ++ sl " km ",
    sl " Pace: " ++ m.pace ++ sl " min/km ",
    sl " Avg HR: " ++ m.avg_hr ++ sl " bpm ",
    sl " Elevation: " ++ m.elevation_gain ++ sl " m ",
    sl " Type: " ++ m.ty]

/-- The lines `docs_to_context` contributes for one document when the
per-KM breakdown is included: the empty line from the summary line's
leading `"\n"`, the summary line, and the breakdown block (a single empty
line when the document has no breakdown lines). -/
def kmBlock (d : SDoc) : List Str :=
  if (d.pageLines.drop 8).isEmpty then [([] : Str)] else d.pageLines.drop 8

def blockLines (d : SDoc) : List Str :=
  [] :: headerBody d.meta :: kmBlock d

/-- Witness document with two per-KM breakdown lines. -/
def wDoc1 : SDoc :=
  ⟨⟨sl "2024-03-01 10:00:00", sl "Morning Run", sl "10.5", sl "5.5",
      sl "150.2", sl "120.0", sl "Easy"⟩,
    [sl "a1", sl "a2", sl "a3", sl "a4", sl "a5", sl "a6", sl "a7", sl "a8",
      sl "KM 1: Pace 5.4 min/km, HR 149.0 bpm, Power 200.0 W, Elevation Gain 10.0 m",
      sl "KM 2: Pace 5.6 min/km, HR 151.0 bpm, Power 198.0 W, Elevation Gain 12.0 m"]⟩

/-- Witness document with a single (synthetic) split line. -/
def wDoc2 : SDoc :=
  ⟨⟨sl "2024-03-02 08:30:00", sl "Manual Run", sl "5.0", sl "6.0",
      sl "140.0", sl "0.0", sl "Unknown"⟩,
    [sl "b1", sl "b2", sl "b3", sl "b4", sl "b5", sl "b6", sl "b7", sl "b8",
      sl "KM 1: Pace 6.0 min/km, HR 140.0 bpm, Power 0 W, Elevation Gain 0 m"]⟩

/-- Witness document with four per-KM breakdown lines. -/
def wDoc3 : SDoc :=
  ⟨⟨sl "2024-03-03 18:00:00", sl "Tempo Run - 2", sl "8.2", sl "4.8",
      sl "165.5", sl "45.0", sl "Tempo"⟩,
    [sl "c1", sl "c2", sl "c3", sl "c4", sl "c5", sl "c6", sl "c7", sl "c8",
      sl "KM 1: Pace 4.9 min/km, HR 160.0 bpm, Power 250.0 W, Elevation Gain 5.0 m",
      sl "KM 2: Pace 4.8 min/km, HR 164.0 bpm, Power 252.0 W, Elevation Gain 8.0 m",
      sl "KM 3: Pace 4.7 min/km, HR 167.0 bpm, Power 255.0 W, Elevation Gain 12.0 m",
      sl "KM 4: Pace 4.8 min/km, HR 168.0 bpm, Power 251.0 W, Elevation Gain 20.0 m"]⟩

/-! ### `LLMClient.interpret_query` (llm/client.py lines 210-226)

The generative model and `json.loads` are external: the model's reply is
the input string and the JSON parser is an opaque parameter returning
`none` on a `json.JSONDecodeError`.  What the source contributes - and
what is embedded - is the cleaning pipeline (`.strip()`, then
`re.sub(r"^```json\s*|```$", "", response, flags=re.MULTILINE)`, then
`.strip()`) and the error path (`raise ValueError(...)` carrying the
offending text, with no retry and no substituted default). -/

/-- One left-to-right pass of `re.sub(r"^```json\s*|```$", "", s, re.MULTILINE)`:
`atLS` tracks whether the scan position is at a line start (for `^`); the
first alternative consumes the fence opener plus the greedy whitespace run,
the second a closing fence immediately before a line end.  The scan
consumes at least one character per step, so the string's length serves as
structural fuel (the fuel-exhausted branch is unreachable). -/
def fenceSubGo : Nat → Bool → Str → Str
  | 0, _, s => s
  | _ + 1, _, [] => []
  | fuel + 1, atLS, c :: cs =>
    if atLS && (sl "```json").isPrefixOf (c :: cs) then
      let rest := (c :: cs).drop 7
      let ws := rest.takeWhile isWsC
      fenceSubGo fuel (!ws.isEmpty && (ws.getLast? == some '\n'))
        (rest.dropWhile isWsC)
    else if (sl "```").isPrefixOf (c :: cs) &&
        (((c :: cs).drop 3).isEmpty || (((c :: cs).drop 3).head? == some '\n')) then
      fenceSubGo fuel false ((c :: cs).drop 3)
    else
      c :: fenceSubGo fuel (c == '\n') cs

def fenceSub (s : Str) : Str := fenceSubGo s.length true s

/-- The cleaned model reply: `response.strip()` at the call site, the
fence `re.sub`, then the final `.strip()`. -/
def cleanResponse (raw : Str) : Str := pyStrip (fenceSub (pyStrip raw))

/-- Models `LLMClient.interpret_query` with the JSON parser abstracted:
`Except.error` is the raised `ValueError`, whose payload is the message
with the offending cleaned text. -/
def interpretQuery {J : Type} (parseJson : Str → Option J) (raw : Str) :
    Except Str J :=
  match parseJson (cleanResponse raw) with
  | some q => .ok q
  | none => .error (sl "Failed to parse Gemini output as JSON:\n" ++ cleanResponse raw)

/-- A stub JSON parser for the concrete witness (the reviewer-facing
contract quantifies over every parser). -/
def parseJ0 : Str → Option Unit :=
  fun s => if s = sl "\x7b\x7d" then some () else none

/-! ### `StravaClient.km_wise_data` (strava/client.py lines 169-209)

Stream samples are floats where a missing sample is `NaN` (`safe_array`
maps `None` to `np.nan`).  `PF` models the float values that actually
arise: a (rational) number, `NaN`, or `+inf` (the result of numpy's
warn-only division `1000 / 0.0`; the dividend is the positive constant
1000, so `-inf` never arises). -/

inductive PF where
  | num (q : ℚ)
  | nan
  | inf
deriving DecidableEq, Repr

/-- Models `np.nanmean`: the mean of the non-NaN entries, `NaN` if there are
none (numpy emits a warning and returns `nan` for an all-NaN slice). -/
def nanmean (l : List PF) : PF :=
  let ns := l.filterMap (fun x => match x with | .num q => some q | _ => none)
  if ns.isEmpty then .nan else .num (ns.sum / ns.length)

/-- Models `1000 / m` on floats: division by `0.0` yields `+inf` (numpy warns,
does not raise), `NaN` propagates. -/
def pf1000Div (m : PF) : PF :=
  match m with
  | .num q => if q = 0 then .inf else .num (1000 / q)
  | .nan => .nan
  | .inf => .num 0

/-- Models `x / 60` on floats. -/
def pfDiv60 (x : PF) : PF :=
  match x with
  | .num q => .num (q / 60)
  | .nan => .nan
  | .inf => .inf

/-- The row expression
`"Avg_Pace_min_per_km": (1000 / np.nanmean(pace[mask])) / 60 if pace.size else None`;
`sel` is the masked velocity slice `pace[mask]`. -/
def paceField (vel sel : List PF) : Option PF :=
  if vel.isEmpty then none else some (pfDiv60 (pf1000Div (nanmean sel)))

/-- The boolean mask `(dist >= (km - 1) * 1000) & (dist < km * 1000)`
(`km` is a Python int, so the bounds are integer arithmetic); comparisons
against `NaN` are `False`. -/
def inBucket (km : Nat) (x : PF) : Bool :=
  match x with
  | .num d =>
    decide ((((km - 1) * 1000 : Nat) : ℚ) ≤ d) &&
      decide (d < ((km * 1000 : Nat) : ℚ))
  | _ => false

def maskIdx (dist : List PF) (km : Nat) : List Nat :=
  (List.range dist.length).filter (fun i => inBucket km (dist.getD i .nan))

/-- Boolean-mask selection `xs[mask]` (numpy requires `xs` and the mask to
have equal length; the embedding ignores out-of-range indices, and every
theorem instantiates equal-length streams). -/
def select (xs : List PF) (idx : List Nat) : List PF :=
  idx.filterMap (fun i => xs.get? i)

/-- Models `np.nanmax` (warn-only `NaN` on an all-NaN slice). -/
def nanmax (l : List PF) : PF :=
  match l.filterMap (fun x => match x with | .num q => some q | _ => none) with
  | [] => .nan
  | x :: xs => .num (xs.foldl max x)

/-- Models `np.nanmin`. -/
def nanmin (l : List PF) : PF :=
  match l.filterMap (fun x => match x with | .num q => some q | _ => none) with
  | [] => .nan
  | x :: xs => .num (xs.foldl min x)

def pfSub (a b : PF) : PF :=
  match a, b with
  | .num x, .num y => .num (x - y)
  | _, _ => .nan

/-- One row of the per-KM dataframe. -/
structure KmRow where
  km : Nat
  avg_hr : Option PF
  avg_cadence : Option PF
  avg_power : Option PF
  pace : Option PF
  elevation : Option PF
deriving DecidableEq, Repr

/-- Models `StravaClient.km_wise_data`: `none` models the uncaught exception of
`int(dist[-1] // 1000)` on a non-finite last distance; otherwise one row
per unit-distance bucket holding at least one sample.  The segment count
`int(dist[-1] // 1000)` is computed as `⌊q⌋ / 1000` in integers, which
equals `⌊q / 1000⌋` for `q ≥ 0` and is likewise negative-or-zero (an empty
`range`) exactly when the float expression is. -/
def kmWiseData (dist hr cad watts vel alt : List PF) :
    Option (List KmRow) :=
  if dist.isEmpty then some []
  else
    match (dist.getLast?).getD .nan with
    | .nan => none
    | .inf => none
    | .num q =>
      some ((List.range' 1 (Int.toNat (Rat.floor q / 1000))).filterMap (fun km =>
        let idx := maskIdx dist km
        if idx.isEmpty then none
        else some
          { km := km
            avg_hr := if hr.isEmpty then none else some (nanmean (select hr idx))
            avg_cadence :=
              if cad.isEmpty then none else some (nanmean (select cad idx))
            avg_power :=
              if watts.isEmpty then none else some (nanmean (select watts idx))
            pace := paceField vel (select vel idx)
            elevation :=
              if alt.isEmpty then none
              else some (pfSub (nanmax (select alt idx))
                (nanmin (select alt idx))) }))

/-! ### Claim C9: the normalizer's pace guard -/

/-- The row produced by the divide-by-zero counterexample streams, with
its pace field stated as the source expression. -/
def rowCex : KmRow :=
  ⟨1, none, none, none,
    paceField [PF.num 0, PF.num 0, PF.num 0]
      (select [PF.num 0, PF.num 0, PF.num 0]
        (maskIdx [PF.num 0, PF.num 500, PF.num 1000] 1)), none⟩

/-- The row produced by the positive-velocity witness streams. -/
def rowPos : KmRow :=
  ⟨1, none, none, none,
    paceField [PF.num 2, PF.num 2, PF.num 2]
      (select [PF.num 2, PF.num 2, PF.num 2]
        (maskIdx [PF.num 0, PF.num 500, PF.num 1000] 1)), none⟩

/-! ### Theorems -/

/-! ### Claim theorems: retrieval post-filter bounds (C4, C6) -/

/-- Claim C4 (corrected, counterexample): the claim says a document with
absent `avg_hr` always passes the upper-bound (`max_avg_hr`) check; in the
code the absent value is compared as `9999`, so with `max_avg_hr = 150`
the document is excluded. -/
theorem maxHr_missing_excluded_cex : maxHrExcl (some 150) mNoHr = true := by decide

/-- Claim C4 (amended): with `avg_hr` absent, the `min_avg_hr` check compares
`0 < min` and the `max_avg_hr` check compares `max < 9999`, so a document
with missing heart rate is excluded by every active positive lower bound
and by every active upper bound below `9999` — the defaults are
anti-permissive, not permissive. -/
theorem missingHr_bounds_char (mn mx : Option ℚ) (m : RMeta)
    (h : m.avg_hr = none) :
    (minHrExcl mn m = true ↔ ∃ v, mn = some v ∧ v ≠ 0 ∧ 0 < v) ∧
    (maxHrExcl mx m = true ↔ ∃ v, mx = some v ∧ v ≠ 0 ∧ v < 9999) := by
  constructor
  · cases mn with
    | none => simp [minHrExcl]
    | some v => simp [minHrExcl, h]
  · cases mx with
    | none => simp [maxHrExcl]
    | some v => simp [maxHrExcl, h]

theorem missingHr_bounds_char_witness :
    (minHrExcl (some 100) mNoHr = true ↔
      ∃ v, (some (100 : ℚ)) = some v ∧ v ≠ 0 ∧ 0 < v) ∧
    (maxHrExcl (some 150) mNoHr = true ↔
      ∃ v, (some (150 : ℚ)) = some v ∧ v ≠ 0 ∧ v < 9999) :=
  missingHr_bounds_char (some 100) (some 150) mNoHr rfl

/-- Claim C6 (confirmed): the `start_date`/`end_date` post-filter guards are
lexical string comparisons with inclusive bounds: a guard excludes only on
strict `<` / `>`, so a document whose date equals the bound is kept. -/
theorem date_bounds_inclusive (s? e? : Option Str) (m : RMeta) :
    (startExcl s? m = true ↔ ∃ s, s? = some s ∧ s ≠ [] ∧ m.date < s) ∧
    (endExcl e? m = true ↔ ∃ e, e? = some e ∧ e ≠ [] ∧ e < m.date) ∧
    (∀ s, s? = some s → m.date = s → startExcl s? m = false) ∧
    (∀ e, e? = some e → m.date = e → endExcl e? m = false) := by
  refine ⟨?_, ?_, ?_, ?_⟩
  · cases s? with
    | none => simp [startExcl]
    | some s => simp [startExcl, List.isEmpty_iff]
  · cases e? with
    | none => simp [endExcl]
    | some e => simp [endExcl, List.isEmpty_iff]
  · rintro s rfl rfl
    simp [startExcl]
  · rintro e rfl rfl
    simp [endExcl]

theorem date_bounds_inclusive_witness :
    startExcl (some (sl "2024-03-01 10:00:00")) mNoHr = false ∧
    endExcl (some (sl "2024-03-01 10:00:00")) mNoHr = false :=
  ⟨(date_bounds_inclusive (some (sl "2024-03-01 10:00:00")) none mNoHr).2.2.1
      _ rfl rfl,
   (date_bounds_inclusive none (some (sl "2024-03-01 10:00:00")) mNoHr).2.2.2
      _ rfl rfl⟩

/-! ### Claim C10: falsy filter values are treated as absent -/

theorem filterEx_congr (q q' : Query) (h : ∀ d, passesEx q d = passesEx q' d) :
    ∀ ds, filterEx q ds = filterEx q' ds := by
  intro ds
  induction ds with
  | nil => rfl
  | cons d ds ih => simp only [filterEx, h d, ih]

theorem retrieveRuns_ext (pool : List RDoc) (q q' : Query) (topK : Nat)
    (h1 : ∀ d, passesEx q d = passesEx q' d)
    (h2 : q.last_n_runs = q'.last_n_runs) :
    retrieveRuns pool q topK = retrieveRuns pool q' topK := by
  unfold retrieveRuns
  rw [filterEx_congr q q' h1 pool, h2]

/-- Claim C10 (confirmed): every falsy-but-non-null `QueryFilter` value
(`0` bounds, `0` distance, `0` last-N, empty type string, empty name list)
makes retrieval behave exactly as if the field were null, because each
guard begins with a Python truthiness test; in particular
`last_n_runs = 0` performs no date sort or truncation and
`run_names = []` routes to the general filter path of the dispatch. -/
theorem falsy_fields_ignored (pool store : List RDoc) (q : Query) :
    retrieveRuns pool {q with min_avg_hr := some 0} 20 =
      retrieveRuns pool {q with min_avg_hr := none} 20 ∧
    retrieveRuns pool {q with max_avg_hr := some 0} 20 =
      retrieveRuns pool {q with max_avg_hr := none} 20 ∧
    retrieveRuns pool {q with distance_km := some 0} 20 =
      retrieveRuns pool {q with distance_km := none} 20 ∧
    retrieveRuns pool {q with ty := some []} 20 =
      retrieveRuns pool {q with ty := none} 20 ∧
    retrieveRuns pool {q with last_n_runs := some 0} 20 =
      retrieveRuns pool {q with last_n_runs := none} 20 ∧
    retrieveRuns pool {q with run_names := some []} 20 =
      retrieveRuns pool {q with run_names := none} 20 ∧
    tier1Dispatch store {q with run_names := some []} =
      tier1Dispatch store {q with run_names := none} := by
  refine ⟨?_, ?_, ?_, ?_, ?_, ?_, ?_⟩
  · exact retrieveRuns_ext _ _ _ _ (fun d => by simp [passesEx, minHrExcl]) rfl
  · exact retrieveRuns_ext _ _ _ _ (fun d => by simp [passesEx, maxHrExcl]) rfl
  · exact retrieveRuns_ext _ _ _ _ (fun d => by simp [passesEx, distExcl]) rfl
  · exact retrieveRuns_ext _ _ _ _ (fun d => by simp [passesEx, typeExcl]) rfl
  · unfold retrieveRuns
    rw [filterEx_congr {q with last_n_runs := some 0} {q with last_n_runs := none}
      (fun d => rfl) pool]
    simp
  · exact retrieveRuns_ext _ _ _ _ (fun d => by simp [passesEx, nameExcl]) rfl
  · have h : tier1Dispatch store {q with run_names := some []} =
        retrieveRuns store {q with run_names := some []} 20 := rfl
    rw [h]
    exact retrieveRuns_ext _ _ _ _ (fun d => by simp [passesEx, nameExcl]) rfl

/-! ### Claim C2: tier-1 name lookup -/

/-- Claim C2 (amended): whenever `run_names` is non-null AND non-empty, the
dispatch routes to `get_runs_by_names`, which returns exactly the stored
documents whose stored name contains at least one requested name as a
case-insensitive substring; the result is empty on an empty store and no
other filter field (including `last_n_runs`) influences the result. -/
theorem tier1_name_lookup (store : List RDoc) (q : Query) (ns : List Str)
    (hq : q.run_names = some ns) (hne : ns ≠ []) :
    tier1Dispatch store q =
      .ok (store.filter (fun d => nameMatches ns d.meta)) ∧
    (store = [] → tier1Dispatch store q = .ok []) ∧
    (∀ q' : Query, q'.run_names = some ns →
      tier1Dispatch store q' = tier1Dispatch store q) := by
  have key : ∀ q'' : Query, q''.run_names = some ns →
      tier1Dispatch store q'' = .ok (getRunsByNames store ns) := by
    intro q'' hq''
    unfold tier1Dispatch
    rw [hq'']
    simp [List.isEmpty_iff, hne]
  refine ⟨key q hq, ?_, ?_⟩
  · intro h
    subst h
    simpa using key q hq
  · intro q' hq'
    rw [key q' hq', key q hq]

theorem tier1_name_lookup_witness :
    tier1Dispatch [dGood, dBad]
        { run_names := some [sl "morning"], last_n_runs := some 1 } =
      .ok (([dGood, dBad]).filter
        (fun d => nameMatches [sl "morning"] d.meta)) :=
  (tier1_name_lookup [dGood, dBad]
    { run_names := some [sl "morning"], last_n_runs := some 1 }
    [sl "morning"] rfl (by decide)).1

/-- Claim C2 (counterexample): with `run_names` non-null but EMPTY, the claim
as stated would require the name-matching result (the empty list), but the
code treats `[]` as falsy, routes to the general filter path, applies
`last_n_runs = 1`, and returns a document. -/
theorem tier1_name_lookup_cex :
    tier1Dispatch [dGood, dBad]
        { run_names := some [], last_n_runs := some 1 } = .ok [dBad] ∧
    ([dGood, dBad]).filter (fun d => nameMatches [] d.meta) = [] := by
  constructor
  · rfl
  · rfl

/-! ### Claim C5: last-N selection -/

/-- Claim C5 (amended): with only `last_n_runs = N` populated (`N ≠ 0`), the
post-filter keeps every candidate, the candidates are stably sorted by the
`date` string descending, and the result is that sorted list truncated to
`N` and then to the overall result cap `top_k = 20` (so `min N 20`
documents when at least that many are stored). -/
theorem lastN_selection (pool : List RDoc) (n : Nat) (hn : n ≠ 0) :
    retrieveRuns pool { last_n_runs := some n } 20 =
      .ok ((List.insertionSort dateGe pool).take (min n 20)) ∧
    List.Sorted dateGe (List.insertionSort dateGe pool) ∧
    (List.insertionSort dateGe pool).Perm pool := by
  refine ⟨?_, List.sorted_insertionSort dateGe pool,
    List.perm_insertionSort dateGe pool⟩
  have hf : filterEx { last_n_runs := some n } pool = .ok pool := by
    induction pool with
    | nil => rfl
    | cons d ds ih =>
      have hp : passesEx { last_n_runs := some n } d = .ok true := rfl
      simp [filterEx, hp, ih]
      rfl
  unfold retrieveRuns
  rw [hf]
  simp [hn, List.take_take, Nat.min_comm]

theorem lastN_selection_witness :
    retrieveRuns [dGood, dBad] { last_n_runs := some 1 } 20 =
      .ok ((List.insertionSort dateGe [dGood, dBad]).take (min 1 20)) :=
  (lastN_selection [dGood, dBad] 1 (by decide)).1

/-- Claim C5 (counterexample): the claim omits the overall result cap: with
21 stored documents and `last_n_runs = 21`, only 20 documents come back,
not the claimed 21. -/
theorem lastN_cap_cex :
    (retrieveRuns (List.replicate 21 dGood) { last_n_runs := some 21 }
        20).map List.length = .ok 20 ∧
    (List.replicate 21 dGood).length = 21 := by
  constructor
  · rfl
  · rfl

/-! ### Claim C3: zero-match fallback -/

/-- Claim C3 (amended): when the dispatch yields zero documents, the workflow
falls back to `get_latest_runs(5)`; PROVIDED every stored date parses as
`%Y-%m-%d %H:%M:%S`, this returns the 5 documents with the most recent
parsed dates, stably sorted descending (all documents when fewer than 5),
and it succeeds on every such store.  The unconditional never-fails part of
the claim is false: a store mixing parseable and unparseable dates makes
the sort key mix `datetime` and `str` and the sort raises `TypeError`. -/
theorem zero_match_fallback (store : List RDoc) (q : Query)
    (hz : tier1Dispatch store q = .ok [])
    (hp : ∀ d ∈ store, (parseDT d.meta.date).isSome = true) :
    documentRetriever store q = .ok ((List.insertionSort dtGe store).take 5) ∧
    List.Sorted dtGe (List.insertionSort dtGe store) ∧
    (List.insertionSort dtGe store).Perm store := by
  refine ⟨?_, List.sorted_insertionSort dtGe store,
    List.perm_insertionSort dtGe store⟩
  unfold documentRetriever
  rw [hz]
  show getLatestRuns store 5 = _
  cases store with
  | nil => rfl
  | cons d ds =>
    have hall : (d :: ds).all (fun x => (parseDT x.meta.date).isSome) = true := by
      rw [List.all_eq_true]
      exact hp
    show (if (d :: ds).isEmpty then _ else _) = _
    rw [if_neg (by simp), if_pos hall]

theorem zero_match_fallback_witness :
    documentRetriever [dGood] { ty := some (sl "Nope") } =
      .ok ((List.insertionSort dtGe [dGood]).take 5) :=
  (zero_match_fallback [dGood] { ty := some (sl "Nope") } rfl (by decide)).1

/-- Claim C3 (counterexample): the claim's "this fallback never fails
whenever the store contains at least one document" is violated: a
two-document store whose dates are one parseable, one not, makes the
fallback raise (model: `Except.error`). -/
theorem zero_match_fallback_cex :
    documentRetriever [dGood, dBad] { ty := some (sl "Nope") } = .error () ∧
    ([dGood, dBad] : List RDoc) ≠ [] := by
  constructor
  · rfl
  · decide

theorem dropWhile_ws_all (a t : Str) (h : a.all isWsC = true) :
    (a ++ t).dropWhile isWsC = t.dropWhile isWsC := by
  induction a with
  | nil => rfl
  | cons c cs ih =>
    simp only [List.all_cons, Bool.and_eq_true] at h
    simp [List.dropWhile_cons, h.1, ih h.2]

theorem pyStrip_sandwich (a s b : Str) (ha : a.all isWsC = true)
    (hb : b.all isWsC = true) (hs : edgeOk s = true) :
    pyStrip (a ++ s ++ b) = s := by
  unfold pyStrip
  rw [List.append_assoc, dropWhile_ws_all a _ ha]
  cases s with
  | nil =>
    have h1 : (b ++ ([] : Str)).dropWhile isWsC = ([] : Str).dropWhile isWsC :=
      dropWhile_ws_all b [] hb
    simp only [List.append_nil] at h1
    simp [h1]
  | cons c cs =>
    simp only [edgeOk, List.head?_cons, Bool.and_eq_true, Bool.not_eq_true'] at hs
    have hc : isWsC c = false := hs.1
    have hlast : ∀ x, (c :: cs).getLast? = some x → isWsC x = false := by
      intro x hx
      have h2 := hs.2
      rw [hx] at h2
      simpa using h2
    rw [List.cons_append, List.dropWhile_cons]
    simp only [hc, Bool.false_eq_true, if_false]
    rw [← List.cons_append, List.reverse_append]
    have hbrev : b.reverse.all isWsC = true := by rwa [List.all_reverse]
    rw [dropWhile_ws_all _ _ hbrev]
    have hrevhead : (c :: cs).reverse.head? = (c :: cs).getLast? :=
      List.head?_reverse _
    cases hrev : (c :: cs).reverse with
    | nil => simp at hrev
    | cons x xs =>
      rw [hrev] at hrevhead
      have hx : isWsC x = false := hlast x hrevhead.symm
      rw [List.dropWhile_cons]
      simp only [hx, Bool.false_eq_true, if_false]
      rw [← hrev, List.reverse_reverse]

theorem pyStrip_id (s : Str) (hs : edgeOk s = true) : pyStrip s = s := by
  have := pyStrip_sandwich [] s [] rfl rfl hs
  simpa using this

theorem splitOnC_ne_nil (sep : Char) (s : Str) : splitOnC sep s ≠ [] := by
  induction s with
  | nil => simp [splitOnC]
  | cons c cs ih =>
    by_cases hc : c = sep <;> simp [splitOnC, hc]

theorem splitOnC_append (sep : Char) (xs ys : Str) :
    splitOnC sep (xs ++ sep :: ys) = splitOnC sep xs ++ splitOnC sep ys := by
  induction xs with
  | nil => simp [splitOnC]
  | cons c cs ih =>
    by_cases hc : c = sep
    · subst hc
      simp [splitOnC, ih]
    · cases h : splitOnC sep cs with
      | nil => exact absurd h (splitOnC_ne_nil sep cs)
      | cons p ps =>
        simp [splitOnC, hc, ih, h]

theorem splitOnC_no_sep (sep : Char) (xs : Str)
    (h : xs.all (fun c => !(c = sep)) = true) : splitOnC sep xs = [xs] := by
  induction xs with
  | nil => rfl
  | cons c cs ih =>
    simp only [List.all_cons, Bool.and_eq_true, Bool.not_eq_true',
      decide_eq_false_iff_not] at h
    simp [splitOnC, h.1, ih (by simpa using h.2)]

theorem splitOnC_joinC (sep : Char) (pieces : List Str) (h : pieces ≠ []) :
    splitOnC sep (joinC sep pieces) = pieces.flatMap (splitOnC sep) := by
  induction pieces with
  | nil => cases h rfl
  | cons p ps ih =>
    cases ps with
    | nil => simp [joinC]
    | cons q qs =>
      rw [show joinC sep (p :: q :: qs) = p ++ sep :: joinC sep (q :: qs) from rfl,
        splitOnC_append, ih (by simp)]
      simp

theorem takeWhile_of_all {p : Char → Bool} (l : Str) (h : l.all p = true) :
    l.takeWhile p = l := by
  induction l with
  | nil => rfl
  | cons c cs ih =>
    simp only [List.all_cons, Bool.and_eq_true] at h
    rw [List.takeWhile_cons, if_pos h.1, ih h.2]

theorem firstNumTok_sandwich (pre t post : Str)
    (hpre : pre.all (fun c => !numChar c) = true) (ht : t ≠ [])
    (htok : t.all numChar = true)
    (hpost : ∀ c, post.head? = some c → numChar c = false) :
    firstNumTok (pre ++ t ++ post) = some t := by
  induction pre with
  | nil =>
    cases t with
    | nil => cases ht rfl
    | cons c cs =>
      simp only [List.all_cons, Bool.and_eq_true] at htok
      simp only [List.nil_append, List.cons_append, firstNumTok, htok.1, if_true]
      congr 1
      simp only [List.append_eq]
      rw [List.takeWhile_append]
      rw [takeWhile_of_all cs htok.2]
      simp only [if_pos rfl]
      cases post with
      | nil => simp
      | cons d ds =>
        have hd : numChar d = false := hpost d rfl
        rw [List.takeWhile_cons, hd]
        simp
  | cons c cs ih =>
    simp only [List.all_cons, Bool.and_eq_true, Bool.not_eq_true'] at hpre
    simp only [List.cons_append, firstNumTok, hpre.1, Bool.false_eq_true, if_false]
    exact ih hpre.2

theorem isDateStart_append (s t : Str) (h : isDateStart s = true) :
    isDateStart (s ++ t) = true := by
  rcases s with _ | ⟨a, _ | ⟨b, _ | ⟨c, _ | ⟨d, _ | ⟨k1, _ | ⟨e, _ | ⟨f,
    _ | ⟨k2, _ | ⟨g, _ | ⟨hh, rest⟩⟩⟩⟩⟩⟩⟩⟩⟩⟩ <;>
    simp_all [isDateStart]

theorem km_not_date (t : Str) (h : (sl "KM").isPrefixOf t = true) :
    isDateStart t = false := by
  cases t with
  | nil => simp [List.isPrefixOf] at h
  | cons c cs =>
    have hc : c = 'K' := by
      have h2 : (('K' == c) && List.isPrefixOf ['M'] cs) = true := h
      simp only [Bool.and_eq_true, beq_iff_eq] at h2
      exact h2.1.symm
    subst hc
    rcases cs with _ | ⟨b, _ | ⟨c2, _ | ⟨d, _ | ⟨k1, _ | ⟨e, _ | ⟨f,
      _ | ⟨k2, _ | ⟨g, _ | ⟨hh, rest⟩⟩⟩⟩⟩⟩⟩⟩⟩ <;>
      simp [isDateStart, show ('K').isDigit = false from rfl]

theorem headerBody_eq_joinC (m : SMeta) :
    headerBody m = joinC '|' (headerSegs m) := by
  simp only [headerBody, headerSegs, joinC,
    show sl " | " = ' ' :: '|' :: ' ' :: ([] : Str) from rfl,
    show sl " | Distance: " = ' ' :: '|' :: ' ' :: 'D' :: 'i' :: 's' :: 't' :: 'a' :: 'n' :: 'c' :: 'e' :: ':' :: ' ' :: ([] : Str) from rfl,
    show sl " km | Pace: " = ' ' :: 'k' :: 'm' :: ' ' :: '|' :: ' ' :: 'P' :: 'a' :: 'c' :: 'e' :: ':' :: ' ' :: ([] : Str) from rfl,
    show sl " min/km | Avg HR: " = ' ' :: 'm' :: 'i' :: 'n' :: '/' :: 'k' :: 'm' :: ' ' :: '|' :: ' ' :: 'A' :: 'v' :: 'g' :: ' ' :: 'H' :: 'R' :: ':' :: ' ' :: ([] : Str) from rfl,
    show sl " bpm | Elevation: " = ' ' :: 'b' :: 'p' :: 'm' :: ' ' :: '|' :: ' ' :: 'E' :: 'l' :: 'e' :: 'v' :: 'a' :: 't' :: 'i' :: 'o' :: 'n' :: ':' :: ' ' :: ([] : Str) from rfl,
    show sl " m | Type: " = ' ' :: 'm' :: ' ' :: '|' :: ' ' :: 'T' :: 'y' :: 'p' :: 'e' :: ':' :: ' ' :: ([] : Str) from rfl,
    show sl " Distance: " = ' ' :: 'D' :: 'i' :: 's' :: 't' :: 'a' :: 'n' :: 'c' :: 'e' :: ':' :: ' ' :: ([] : Str) from rfl,
    show sl " km " = ' ' :: 'k' :: 'm' :: ' ' :: ([] : Str) from rfl,
    show sl " Pace: " = ' ' :: 'P' :: 'a' :: 'c' :: 'e' :: ':' :: ' ' :: ([] : Str) from rfl,
    show sl " min/km " = ' ' :: 'm' :: 'i' :: 'n' :: '/' :: 'k' :: 'm' :: ' ' :: ([] : Str) from rfl,
    show sl " Avg HR: " = ' ' :: 'A' :: 'v' :: 'g' :: ' ' :: 'H' :: 'R' :: ':' :: ' ' :: ([] : Str) from rfl,
    show sl " bpm " = ' ' :: 'b' :: 'p' :: 'm' :: ' ' :: ([] : Str) from rfl,
    show sl " Elevation: " = ' ' :: 'E' :: 'l' :: 'e' :: 'v' :: 'a' :: 't' :: 'i' :: 'o' :: 'n' :: ':' :: ' ' :: ([] : Str) from rfl,
    show sl " m " = ' ' :: 'm' :: ' ' :: ([] : Str) from rfl,
    show sl " Type: " = ' ' :: 'T' :: 'y' :: 'p' :: 'e' :: ':' :: ' ' :: ([] : Str) from rfl,
    List.cons_append, List.nil_append, List.append_assoc]

theorem all_no_pipe_of_numChar (l : Str) (h : l.all numChar = true) :
    l.all (fun c => !(c = '|')) = true := by
  rw [List.all_eq_true] at h ⊢
  intro c hc
  simp only [Bool.not_eq_true', decide_eq_false_iff_not]
  intro he
  subst he
  have h2 := h _ hc
  simp [numChar] at h2

theorem cleanStr_no_pipe (s : Str) (h : cleanStr s = true) :
    s.all (fun c => !(c = '|')) = true := by
  simp only [cleanStr, Bool.and_eq_true] at h
  rw [List.all_eq_true] at h ⊢
  intro c hc
  exact ((Bool.and_eq_true _ _).mp (h.1 c hc)).1

theorem cleanStr_no_nl (s : Str) (h : cleanStr s = true) :
    s.all (fun c => !(c = '\n')) = true := by
  simp only [cleanStr, Bool.and_eq_true] at h
  rw [List.all_eq_true] at h ⊢
  intro c hc
  exact ((Bool.and_eq_true _ _).mp (h.1 c hc)).2

theorem cleanStr_edge (s : Str) (h : cleanStr s = true) : edgeOk s = true := by
  simp only [cleanStr, Bool.and_eq_true] at h
  exact h.2

theorem floatTok_numChar (t : Str) (h : floatTokOk t = true) :
    t.all numChar = true := by
  simp only [floatTokOk, Bool.and_eq_true] at h
  exact h.1.1.2

theorem floatTok_ne_nil (t : Str) (h : floatTokOk t = true) : t ≠ [] := by
  simp only [floatTokOk, Bool.and_eq_true] at h
  have := h.1.1.1
  simpa [List.isEmpty_iff] using this

theorem floatTok_isPyFloat (t : Str) (h : floatTokOk t = true) :
    isPyFloat t = true := by
  simp only [floatTokOk, Bool.and_eq_true] at h
  simp only [isPyFloat, Bool.and_eq_true]
  exact ⟨⟨h.1.1.1, h.1.2⟩, h.2⟩

theorem splitPipe_headerBody (m : SMeta) (hm : wfSMeta m = true) :
    splitOnC '|' (headerBody m) = headerSegs m := by
  have hw := hm
  simp only [wfSMeta, Bool.and_eq_true] at hw
  obtain ⟨⟨⟨⟨⟨⟨⟨⟨⟨h1, h2⟩, h3⟩, h4⟩, h5⟩, h6⟩, h7⟩, h8⟩, h9⟩, h10⟩ := hw
  have s0 : splitOnC '|' (m.date ++ [' ']) = [m.date ++ [' ']] :=
    splitOnC_no_sep _ _ (by
      simp [List.all_append, cleanStr_no_pipe _ h2])
  have s1 : splitOnC '|' (' ' :: (m.name ++ [' '])) =
      [' ' :: (m.name ++ [' '])] :=
    splitOnC_no_sep _ _ (by
      simp [List.all_append, List.all_cons, cleanStr_no_pipe _ h3])
  have s2 : splitOnC '|' (sl " Distance: " ++ m.distance ++ sl " km ") =
      [sl " Distance: " ++ m.distance ++ sl " km "] :=
    splitOnC_no_sep _ _ (by
      simp only [List.all_append, Bool.and_eq_true]
      exact ⟨⟨by decide, all_no_pipe_of_numChar _ (floatTok_numChar _ h4)⟩,
        by decide⟩)
  have s3 : splitOnC '|' (sl " Pace: " ++ m.pace ++ sl " min/km ") =
      [sl " Pace: " ++ m.pace ++ sl " min/km "] :=
    splitOnC_no_sep _ _ (by
      simp only [List.all_append, Bool.and_eq_true]
      exact ⟨⟨by decide, all_no_pipe_of_numChar _ (floatTok_numChar _ h5)⟩,
        by decide⟩)
  have s4 : splitOnC '|' (sl " Avg HR: " ++ m.avg_hr ++ sl " bpm ") =
      [sl " Avg HR: " ++ m.avg_hr ++ sl " bpm "] :=
    splitOnC_no_sep _ _ (by
      simp only [List.all_append, Bool.and_eq_true]
      exact ⟨⟨by decide, all_no_pipe_of_numChar _ (floatTok_numChar _ h6)⟩,
        by decide⟩)
  have s5 : splitOnC '|' (sl " Elevation: " ++ m.elevation_gain ++ sl " m ") =
      [sl " Elevation: " ++ m.elevation_gain ++ sl " m "] :=
    splitOnC_no_sep _ _ (by
      simp only [List.all_append, Bool.and_eq_true]
      exact ⟨⟨by decide, all_no_pipe_of_numChar _ (floatTok_numChar _ h7)⟩,
        by decide⟩)
  have s6 : splitOnC '|' (sl " Type: " ++ m.ty) = [sl " Type: " ++ m.ty] :=
    splitOnC_no_sep _ _ (by
      simp only [List.all_append, Bool.and_eq_true]
      exact ⟨by decide, cleanStr_no_pipe _ h8⟩)
  rw [headerBody_eq_joinC, splitOnC_joinC '|' _ (by simp [headerSegs])]
  simp only [headerSegs, List.flatMap_cons, List.flatMap_nil,
    s0, s1, s2, s3, s4, s5, s6, List.append_nil]
  rfl

theorem removeTypeTok_id (s : Str) (h : subIn (sl "Type: ") s = false) :
    removeTypeTok s = s := by
  induction s using removeTypeTok.induct with
  | case1 cs =>
    exfalso
    have : subIn (sl "Type: ") ('T' :: 'y' :: 'p' :: 'e' :: ':' :: ' ' :: cs) =
        true := by
      unfold subIn
      simp [List.isPrefixOf]
    rw [this] at h
    cases h
  | case2 c cs hne ih =>
    have h2 : subIn (sl "Type: ") cs = false := by
      unfold subIn at h
      cases hp : List.isPrefixOf (sl "Type: ") (c :: cs) with
      | true => rw [hp] at h; cases h
      | false => rw [hp] at h; simpa using h
    rw [removeTypeTok.eq_2 c cs hne, ih h2]
  | case3 => rfl

theorem removeTypeTok_pre (s : Str) (h : subIn (sl "Type: ") s = false) :
    removeTypeTok (sl "Type: " ++ s) = s := by
  have he : removeTypeTok (sl "Type: " ++ s) = removeTypeTok s := rfl
  rw [he, removeTypeTok_id s h]

theorem head_space_hpost (rest : Str) :
    ∀ c, (' ' :: rest).head? = some c → numChar c = false := by
  intro c hc
  simp only [List.head?_cons, Option.some.injEq] at hc
  subst hc
  decide

theorem hfield_sandwich (pre t post : Str)
    (hpre : pre.all (fun c => !numChar c) = true)
    (hpost : ∀ c, post.head? = some c → numChar c = false)
    (hf : floatTokOk t = true) :
    hfield (pre ++ t ++ post) = some t := by
  unfold hfield
  rw [firstNumTok_sandwich pre t post hpre (floatTok_ne_nil t hf)
    (floatTok_numChar t hf) hpost]
  simp [floatTok_isPyFloat t hf]

theorem parseHeader_headerBody (m : SMeta) (hm : wfSMeta m = true) :
    parseHeader (headerBody m) = .ok (headerOf m) := by
  have hw := hm
  simp only [wfSMeta, Bool.and_eq_true] at hw
  obtain ⟨⟨⟨⟨⟨⟨⟨⟨⟨h1, h2⟩, h3⟩, h4⟩, h5⟩, h6⟩, h7⟩, h8⟩, h9⟩, h10⟩ := hw
  have e0 : pyStrip (m.date ++ [' ']) = m.date :=
    pyStrip_sandwich [] m.date [' '] rfl (by decide) (cleanStr_edge _ h2)
  have e1 : pyStrip (' ' :: (m.name ++ [' '])) = m.name :=
    pyStrip_sandwich [' '] m.name [' '] (by decide) (by decide)
      (cleanStr_edge _ h3)
  have e2 : hfield (sl " Distance: " ++ m.distance ++ sl " km ") =
      some m.distance :=
    hfield_sandwich _ _ _ (by decide)
      (fun c hc => head_space_hpost (sl "km ") c hc) h4
  have e3 : hfield (sl " Pace: " ++ m.pace ++ sl " min/km ") = some m.pace :=
    hfield_sandwich _ _ _ (by decide)
      (fun c hc => head_space_hpost (sl "min/km ") c hc) h5
  have e4 : hfield (sl " Avg HR: " ++ m.avg_hr ++ sl " bpm ") =
      some m.avg_hr :=
    hfield_sandwich _ _ _ (by decide)
      (fun c hc => head_space_hpost (sl "bpm ") c hc) h6
  have e5 : hfield (sl " Elevation: " ++ m.elevation_gain ++ sl " m ") =
      some m.elevation_gain :=
    hfield_sandwich _ _ _ (by decide)
      (fun c hc => head_space_hpost (sl "m ") c hc) h7
  have htyne : m.ty ≠ [] := by simpa [List.isEmpty_iff] using h9
  have hglast : (sl "Type: " ++ m.ty).getLast? = m.ty.getLast? :=
    List.getLast?_append_of_ne_nil _ htyne
  have hedge : edgeOk (sl "Type: " ++ m.ty) = true := by
    have h8e := cleanStr_edge _ h8
    simp only [edgeOk, Bool.and_eq_true] at h8e ⊢
    refine ⟨rfl, ?_⟩
    rw [show (sl "Type: " ++ m.ty).getLast? = m.ty.getLast? from hglast]
    exact h8e.2
  have e6 : removeTypeTok (pyStrip (sl " Type: " ++ m.ty)) = m.ty := by
    have hty0 : pyStrip ((sl " Type: " ++ m.ty) ++ []) = sl "Type: " ++ m.ty :=
      pyStrip_sandwich [' '] (sl "Type: " ++ m.ty) [] (by decide) rfl hedge
    rw [List.append_nil] at hty0
    rw [hty0]
    exact removeTypeTok_pre _ (by simpa using h10)
  unfold parseHeader
  rw [splitPipe_headerBody m hm]
  have hlen : (7 : Nat) ≤ (headerSegs m).length := by simp [headerSegs]
  rw [if_pos hlen]
  simp only [headerSegs, List.getD_cons_zero, List.getD_cons_succ,
    e2, e3, e4, e5]
  simp only [e0, e1, e6, headerOf]

theorem ctdLines_no_header (st : CHeader) (ls rest : List Str)
    (h : ∀ l ∈ ls, isDateStart (pyStrip l) = false) :
    ctdLines st (ls ++ rest) =
      (ctdLines st rest).map (fun rs => genRows st ls ++ rs) := by
  induction ls with
  | nil =>
    cases hr : ctdLines st rest <;> simp [genRows, hr]
  | cons l ls ih =>
    have hl : isDateStart (pyStrip l) = false := h l (by simp)
    have hrest : ∀ x ∈ ls, isDateStart (pyStrip x) = false :=
      fun x hx => h x (by simp [hx])
    simp only [List.cons_append, ctdLines, hl, Bool.false_eq_true, if_false,
      List.append_eq]
    by_cases he : (pyStrip l).isEmpty
    · have hKM : (sl "KM").isPrefixOf (pyStrip l) = false := by
        rw [List.isEmpty_iff] at he
        rw [he]
        rfl
      rw [if_pos he, ih hrest]
      have hg : genRows st (l :: ls) = genRows st ls := by
        simp only [genRows, List.filterMap_cons, hKM, Bool.false_eq_true,
          if_false]
      rw [hg]
    · rw [if_neg he]
      by_cases hKM : (sl "KM").isPrefixOf (pyStrip l) = true
      · cases hparse : parseKmLine (pyStrip l) with
        | some kf =>
          simp only [hKM, if_true, hparse]
          rw [ih hrest]
          have hg : genRows st (l :: ls) = attachHeader st kf :: genRows st ls := by
            simp only [genRows, List.filterMap_cons, hKM, if_true, hparse]
            rfl
          rw [hg]
          cases hr : ctdLines st rest <;> rfl
        | none =>
          simp only [hKM, if_true, hparse]
          rw [ih hrest]
          have hg : genRows st (l :: ls) = genRows st ls := by
            simp only [genRows, List.filterMap_cons, hKM, if_true, hparse]
            rfl
          rw [hg]
      · have hKM2 : (sl "KM").isPrefixOf (pyStrip l) = false := by
          rwa [Bool.not_eq_true] at hKM
        simp only [hKM2, Bool.false_eq_true, if_false]
        rw [ih hrest]
        have hg : genRows st (l :: ls) = genRows st ls := by
          simp only [genRows, List.filterMap_cons, hKM2, Bool.false_eq_true,
            if_false]
        rw [hg]

theorem digit_not_ws (c : Char) (h : c.isDigit = true) : isWsC c = false := by
  cases hw : isWsC c
  · rfl
  · exfalso
    simp only [isWsC, Bool.or_eq_true, decide_eq_true_eq] at hw
    rcases hw with ((((h1 | h1) | h1) | h1) | h1) | h1 <;> subst h1 <;>
      simp [Char.isDigit] at h

theorem isDateStart_not_ws_head (s : Str) (h : isDateStart s = true) :
    (match s.head? with | some c => !isWsC c | none => true) = true := by
  rcases s with _ | ⟨a, _ | ⟨b, _ | ⟨c, _ | ⟨d, _ | ⟨k1, _ | ⟨e, _ | ⟨f,
    _ | ⟨k2, _ | ⟨g, _ | ⟨hh, rest⟩⟩⟩⟩⟩⟩⟩⟩⟩⟩ <;>
    simp_all [isDateStart] <;>
    simp [digit_not_ws a (by simp_all)]

theorem isDateStart_ne_nil (s : Str) (h : isDateStart s = true) :
    s.isEmpty = false := by
  cases s with
  | nil => simp [isDateStart] at h
  | cons c cs => rfl

theorem wfKmLine_parts (l : Str) (h : wfKmLine l = true) :
    (sl "KM").isPrefixOf (pyStrip l) = true ∧
      (parseKmLine (pyStrip l)).isSome = true := by
  simp only [wfKmLine, Bool.and_eq_true] at h
  exact ⟨h.1.2, h.2⟩

theorem genRows_eq_docRows (d : SDoc)
    (hkm : (d.pageLines.drop 8).all wfKmLine = true) :
    genRows (headerOf d.meta) (d.pageLines.drop 8) = docRows d := by
  unfold genRows docRows
  have key : ∀ ls : List Str, ls.all wfKmLine = true →
      ls.filterMap (fun l =>
        if (sl "KM").isPrefixOf (pyStrip l) = true then
          (parseKmLine (pyStrip l)).map (attachHeader (headerOf d.meta))
        else none) =
      ls.filterMap (fun l =>
        (parseKmLine (pyStrip l)).map (attachHeader (headerOf d.meta))) := by
    intro ls hls
    induction ls with
    | nil => rfl
    | cons l ls ih =>
      simp only [List.all_cons, Bool.and_eq_true] at hls
      have hp := (wfKmLine_parts l hls.1).1
      simp only [List.filterMap_cons, hp, if_true, ih hls.2]
  exact key _ hkm

set_option maxHeartbeats 1000000 in
theorem ctdLines_block (st : CHeader) (d : SDoc) (hd : wfSDoc d = true)
    (rest : List Str) :
    ctdLines st (blockLines d ++ rest) =
      (ctdLines (headerOf d.meta) rest).map (fun rs => docRows d ++ rs) := by
  have hd2 := hd
  simp only [wfSDoc, Bool.and_eq_true] at hd2
  obtain ⟨hm, hkm⟩ := hd2
  have hmw := hm
  simp only [wfSMeta, Bool.and_eq_true] at hmw
  obtain ⟨⟨⟨⟨⟨⟨⟨⟨⟨h1, h2⟩, h3⟩, h4⟩, h5⟩, h6⟩, h7⟩, h8⟩, h9⟩, h10⟩ := hmw
  have htyne : d.meta.ty ≠ [] := by simpa [List.isEmpty_iff] using h9
  have hDS : isDateStart (headerBody d.meta) = true := by
    unfold headerBody
    simp only [List.append_assoc]
    exact isDateStart_append _ _ h1
  have hgl : (headerBody d.meta).getLast? = d.meta.ty.getLast? :=
    List.getLast?_append_of_ne_nil _ htyne
  have hedgeH : edgeOk (headerBody d.meta) = true := by
    simp only [edgeOk, Bool.and_eq_true]
    refine ⟨isDateStart_not_ws_head _ hDS, ?_⟩
    rw [hgl]
    have h8e := cleanStr_edge _ h8
    simp only [edgeOk, Bool.and_eq_true] at h8e
    exact h8e.2
  have hstrip : pyStrip (headerBody d.meta) = headerBody d.meta :=
    pyStrip_id _ hedgeH
  have hne : (headerBody d.meta).isEmpty = false := isDateStart_ne_nil _ hDS
  show ctdLines st (([] : Str) :: headerBody d.meta :: (kmBlock d ++ rest)) = _
  have hskip : ctdLines st (([] : Str) :: headerBody d.meta :: (kmBlock d ++ rest)) =
      ctdLines st (headerBody d.meta :: (kmBlock d ++ rest)) := by
    rw [ctdLines.eq_2]
    rw [if_pos (show (pyStrip ([] : Str)).isEmpty = true from rfl)]
  rw [hskip]
  have hstep : ctdLines st (headerBody d.meta :: (kmBlock d ++ rest)) =
      ctdLines (headerOf d.meta) (kmBlock d ++ rest) := by
    rw [ctdLines.eq_2, hstrip, hne]
    simp only [Bool.false_eq_true, if_false, hDS, if_true,
      parseHeader_headerBody d.meta hm]
  rw [hstep]
  by_cases hkb : (d.pageLines.drop 8).isEmpty
  · have hdocrows : docRows d = [] := by
      rw [List.isEmpty_iff] at hkb
      simp [docRows, hkb]
    rw [show kmBlock d = [([] : Str)] from by simp [kmBlock, hkb]]
    rw [show ([([] : Str)] ++ rest) = (([] : Str) :: rest) from rfl]
    have hskip2 : ctdLines (headerOf d.meta) (([] : Str) :: rest) =
        ctdLines (headerOf d.meta) rest := by
      rw [ctdLines.eq_2]
      rw [if_pos (show (pyStrip ([] : Str)).isEmpty = true from rfl)]
    rw [hskip2, hdocrows]
    cases hr : ctdLines (headerOf d.meta) rest <;> simp [hr]
  · rw [show kmBlock d = d.pageLines.drop 8 from by simp [kmBlock, hkb]]
    have hnodate : ∀ l ∈ d.pageLines.drop 8, isDateStart (pyStrip l) = false := by
      intro l hl
      have hw := List.all_eq_true.mp hkm l hl
      exact km_not_date _ (wfKmLine_parts l hw).1
    rw [ctdLines_no_header (headerOf d.meta) _ rest hnodate,
      genRows_eq_docRows d hkm]

theorem ctdLines_docs (docs : List SDoc) (h : ∀ d ∈ docs, wfSDoc d = true)
    (st : CHeader) :
    ctdLines st (docs.flatMap blockLines) = some (docs.flatMap docRows) := by
  induction docs generalizing st with
  | nil => rfl
  | cons d ds ih =>
    rw [List.flatMap_cons, ctdLines_block st d (h d (by simp)) _,
      ih (fun x hx => h x (by simp [hx])) (headerOf d.meta)]
    simp

theorem all_no_nl_of_numChar (l : Str) (h : l.all numChar = true) :
    l.all (fun c => !(c = '\n')) = true := by
  rw [List.all_eq_true] at h ⊢
  intro c hc
  simp only [Bool.not_eq_true', decide_eq_false_iff_not]
  intro he
  subst he
  have h2 := h _ hc
  simp [numChar] at h2

theorem headerBody_no_nl (m : SMeta) (hm : wfSMeta m = true) :
    (headerBody m).all (fun c => !(c = '\n')) = true := by
  have hw := hm
  simp only [wfSMeta, Bool.and_eq_true] at hw
  obtain ⟨⟨⟨⟨⟨⟨⟨⟨⟨h1, h2⟩, h3⟩, h4⟩, h5⟩, h6⟩, h7⟩, h8⟩, h9⟩, h10⟩ := hw
  unfold headerBody
  simp only [List.all_append, Bool.and_eq_true]
  refine ⟨⟨⟨⟨⟨⟨⟨⟨⟨⟨⟨⟨cleanStr_no_nl _ h2, by decide⟩, cleanStr_no_nl _ h3⟩,
    by decide⟩, all_no_nl_of_numChar _ (floatTok_numChar _ h4)⟩, by decide⟩,
    all_no_nl_of_numChar _ (floatTok_numChar _ h5)⟩, by decide⟩,
    all_no_nl_of_numChar _ (floatTok_numChar _ h6)⟩, by decide⟩,
    all_no_nl_of_numChar _ (floatTok_numChar _ h7)⟩, by decide⟩,
    cleanStr_no_nl _ h8⟩

theorem block_split (d : SDoc) (hd : wfSDoc d = true) :
    splitOnC '\n' ('\n' :: headerBody d.meta) ++
      splitOnC '\n' (joinNl (d.pageLines.drop 8)) = blockLines d := by
  have hd2 := hd
  simp only [wfSDoc, Bool.and_eq_true] at hd2
  obtain ⟨hm, hkm⟩ := hd2
  have e1 : splitOnC '\n' ('\n' :: headerBody d.meta) =
      [] :: splitOnC '\n' (headerBody d.meta) := by
    simp [splitOnC]
  have e2 : splitOnC '\n' (headerBody d.meta) = [headerBody d.meta] :=
    splitOnC_no_sep _ _ (headerBody_no_nl d.meta hm)
  rw [e1, e2]
  by_cases hkb : (d.pageLines.drop 8).isEmpty
  · rw [List.isEmpty_iff] at hkb
    rw [hkb]
    simp [blockLines, kmBlock, hkb, joinNl, joinC, splitOnC]
  · have hlines : ∀ l ∈ d.pageLines.drop 8, splitOnC '\n' l = [l] := by
      intro l hl
      have hw := List.all_eq_true.mp hkm l hl
      simp only [wfKmLine, Bool.and_eq_true] at hw
      exact splitOnC_no_sep _ _ hw.1.1
    have hjoin : splitOnC '\n' (joinNl (d.pageLines.drop 8)) =
        d.pageLines.drop 8 := by
      rw [show joinNl = joinC '\n' from rfl,
        splitOnC_joinC '\n' _ (by simpa [List.isEmpty_iff] using hkb)]
      have : ∀ ls : List Str, (∀ l ∈ ls, splitOnC '\n' l = [l]) →
          ls.flatMap (splitOnC '\n') = ls := by
        intro ls hls
        induction ls with
        | nil => rfl
        | cons x xs ih =>
          rw [List.flatMap_cons, hls x (by simp),
            ih (fun y hy => hls y (by simp [hy]))]
          rfl
      exact this _ hlines
    rw [hjoin]
    simp [blockLines, kmBlock, hkb]

theorem context_lines (docs : List SDoc) (hne : docs ≠ [])
    (h : ∀ d ∈ docs, wfSDoc d = true) :
    splitOnC '\n' (docsToContext docs true) = docs.flatMap blockLines := by
  unfold docsToContext
  rw [if_neg (by simpa [List.isEmpty_iff] using hne)]
  rw [show joinNl = joinC '\n' from rfl]
  have hpieces : docs.flatMap (fun d =>
      ('\n' :: headerBody d.meta) ::
        (if true then [joinC '\n' (d.pageLines.drop 8)] else [])) ≠ [] := by
    cases docs with
    | nil => cases hne rfl
    | cons d ds => simp
  rw [splitOnC_joinC '\n' _ hpieces, List.flatMap_assoc]
  have key : ∀ ds : List SDoc, (∀ d ∈ ds, wfSDoc d = true) →
      ds.flatMap (fun d =>
        (('\n' :: headerBody d.meta) ::
          (if true then [joinC '\n' (d.pageLines.drop 8)] else [])).flatMap
            (splitOnC '\n')) = ds.flatMap blockLines := by
    intro ds hds
    induction ds with
    | nil => rfl
    | cons d dd ih =>
      rw [List.flatMap_cons, List.flatMap_cons,
        ih (fun x hx => hds x (by simp [hx]))]
      congr 1
      have hb := block_split d (hds d (by simp))
      rw [show joinNl = joinC '\n' from rfl] at hb
      simpa using hb
  exact key docs h

theorem docRows_length (d : SDoc) (hd : wfSDoc d = true) :
    (docRows d).length = (d.pageLines.drop 8).length := by
  simp only [wfSDoc, Bool.and_eq_true] at hd
  obtain ⟨hm, hkm⟩ := hd
  unfold docRows
  have key : ∀ ls : List Str, ls.all wfKmLine = true →
      (ls.filterMap (fun l =>
        (parseKmLine (pyStrip l)).map
          (attachHeader (headerOf d.meta)))).length = ls.length := by
    intro ls hls
    induction ls with
    | nil => rfl
    | cons l ls2 ih =>
      simp only [List.all_cons, Bool.and_eq_true] at hls
      have hsome := (wfKmLine_parts l hls.1).2
      cases hp : parseKmLine (pyStrip l) with
      | none => rw [hp] at hsome; cases hsome
      | some kf =>
        simp only [List.filterMap_cons, hp, Option.map_some', List.length_cons,
          ih hls.2]
  exact key _ hkm

/-- Claim C1 (confirmed): serializing any list of well-formed stored documents
with the per-KM breakdown included and deserializing the result yields one
row per breakdown line - `sum(k_i)` rows in total - and every row carries
its source document's parent-level metadata (date, name, type, distance,
pace, heart rate, elevation) verbatim (the numeric tokens are the exact
rendered metadata values, hence equal within formatting precision). -/
theorem round_trip (docs : List SDoc) (h : ∀ d ∈ docs, wfSDoc d = true) :
    contextToDataframe (docsToContext docs true) =
      some (docs.flatMap docRows) ∧
    (docs.flatMap docRows).length =
      (docs.map (fun d => (d.pageLines.drop 8).length)).sum ∧
    (∀ d ∈ docs, ∀ r ∈ docRows d,
      r.date = d.meta.date ∧ r.run_name = d.meta.name ∧
      r.run_type = d.meta.ty ∧ r.distance = d.meta.distance ∧
      r.avg_pace = d.meta.pace ∧ r.avg_hr = d.meta.avg_hr ∧
      r.total_elevation = d.meta.elevation_gain) := by
  refine ⟨?_, ?_, ?_⟩
  · cases hd : docs with
    | nil => rfl
    | cons d ds =>
      subst hd
      unfold contextToDataframe
      rw [context_lines _ (by simp) h]
      exact ctdLines_docs _ h initHeader
  · induction docs with
    | nil => rfl
    | cons d ds ih =>
      rw [List.flatMap_cons, List.length_append,
        docRows_length d (h d (by simp)),
        ih (fun x hx => h x (by simp [hx]))]
      simp
  · intro d hd r hr
    simp only [docRows, List.mem_filterMap] at hr
    obtain ⟨l, hl, he⟩ := hr
    cases hp : parseKmLine (pyStrip l) with
    | none => rw [hp] at he; cases he
    | some kf =>
      rw [hp, Option.map_some'] at he
      cases he
      simp [attachHeader, headerOf]

theorem round_trip_witness :
    contextToDataframe (docsToContext [wDoc1, wDoc2, wDoc3] true) =
      some ([wDoc1, wDoc2, wDoc3].flatMap docRows) ∧
    ([wDoc1, wDoc2, wDoc3].flatMap docRows).length =
      ([wDoc1, wDoc2, wDoc3].map
        (fun d => (d.pageLines.drop 8).length)).sum ∧
    (∀ d ∈ [wDoc1, wDoc2, wDoc3], ∀ r ∈ docRows d,
      r.date = d.meta.date ∧ r.run_name = d.meta.name ∧
      r.run_type = d.meta.ty ∧ r.distance = d.meta.distance ∧
      r.avg_pace = d.meta.pace ∧ r.avg_hr = d.meta.avg_hr ∧
      r.total_elevation = d.meta.elevation_gain) :=
  round_trip [wDoc1, wDoc2, wDoc3] (by decide)

/-! ### Claim C7: per-KM lines before any header -/

/-- Claim C7 (counterexample): the claim says per-KM lines before any header
line contribute no rows; in the code such a (well-formed) line DOES append
a row, with every parent-level field at its `current_run.get` default
(empty strings and zeros). -/
theorem orphan_km_cex :
    contextToDataframe
        (sl "KM 1: Pace 5.0 min/km, HR 140.0 bpm, Power 175.0 W, Elevation Gain 3.0 m") =
      some [⟨[], [], [], 1, sl "5.0", sl "140.0", sl "175.0", sl "3.0",
        sl "0", sl "0", sl "0", sl "0"⟩] := by
  rfl

/-- Claim C7 (amended): lines preceding the first header line leave
`current_run` empty, so each such well-formed KM line contributes one row
whose parent-level fields are the defaults (`""` strings, `0` numerics) -
the rows are not dropped; only KM lines that fail the per-KM parse are. -/
theorem orphan_km_rows (ctx : Str) (ls rest : List Str)
    (hsplit : splitOnC '\n' ctx = ls ++ rest)
    (h : ∀ l ∈ ls, isDateStart (pyStrip l) = false) :
    contextToDataframe ctx =
      (ctdLines initHeader rest).map (fun rs => genRows initHeader ls ++ rs) ∧
    (∀ r ∈ genRows initHeader ls,
      r.date = [] ∧ r.run_name = [] ∧ r.run_type = [] ∧
      r.distance = sl "0" ∧ r.avg_hr = sl "0" ∧ r.avg_pace = sl "0" ∧
      r.total_elevation = sl "0") := by
  constructor
  · unfold contextToDataframe
    rw [hsplit]
    exact ctdLines_no_header initHeader ls rest h
  · intro r hr
    simp only [genRows, List.mem_filterMap] at hr
    obtain ⟨l, hl, he⟩ := hr
    by_cases hKM : (sl "KM").isPrefixOf (pyStrip l) = true
    · rw [if_pos hKM] at he
      cases hp : parseKmLine (pyStrip l) with
      | none => rw [hp] at he; cases he
      | some kf =>
        rw [hp, Option.map_some'] at he
        cases he
        simp [attachHeader, initHeader]
    · rw [if_neg hKM] at he
      cases he

theorem orphan_km_rows_witness :
    contextToDataframe
        (sl "KM 3: Pace 5.2 min/km, HR 141.0 bpm, Power 170.0 W, Elevation Gain 2.0 m") =
      (ctdLines initHeader []).map (fun rs =>
        genRows initHeader
          [sl "KM 3: Pace 5.2 min/km, HR 141.0 bpm, Power 170.0 W, Elevation Gain 2.0 m"] ++ rs) ∧
    (∀ r ∈ genRows initHeader
        [sl "KM 3: Pace 5.2 min/km, HR 141.0 bpm, Power 170.0 W, Elevation Gain 2.0 m"],
      r.date = [] ∧ r.run_name = [] ∧ r.run_type = [] ∧
      r.distance = sl "0" ∧ r.avg_hr = sl "0" ∧ r.avg_pace = sl "0" ∧
      r.total_elevation = sl "0") :=
  orphan_km_rows _ _ [] rfl (by decide)

/-- Claim C8 (confirmed): when the cleaned model output fails to parse, the
call raises an error whose payload carries the offending (fence-stripped)
text, no default filter object is substituted (the result is never `ok`),
and the function performs no retry (it is a single pure evaluation);
conversely a cleaned output that parses is returned as-is. -/
theorem interpret_query_contract {J : Type} (parseJson : Str → Option J)
    (raw : Str) :
    (∀ j, parseJson (cleanResponse raw) = some j →
      interpretQuery parseJson raw = .ok j) ∧
    (parseJson (cleanResponse raw) = none →
      interpretQuery parseJson raw =
        .error (sl "Failed to parse Gemini output as JSON:\n" ++
          cleanResponse raw) ∧
      ∀ j, interpretQuery parseJson raw ≠ .ok j) := by
  constructor
  · intro j hj
    unfold interpretQuery
    rw [hj]
  · intro h0
    unfold interpretQuery
    rw [h0]
    exact ⟨rfl, fun j h => by cases h⟩

theorem interpret_query_contract_witness :
    interpretQuery parseJ0 (sl "```json\n\x7b\x7d\n```") = .ok () ∧
    interpretQuery parseJ0 (sl "```json\nnot json\n```") =
      .error (sl "Failed to parse Gemini output as JSON:\n" ++
        cleanResponse (sl "```json\nnot json\n```")) :=
  ⟨(interpret_query_contract parseJ0 (sl "```json\n\x7b\x7d\n```")).1 ()
      (by decide),
    ((interpret_query_contract parseJ0 (sl "```json\nnot json\n```")).2
      (by decide)).1⟩

/-- Claim C9 (counterexample): the claim says pace is null when the bucket's
mean velocity is zero; the code divides anyway and numpy returns `+inf`
(a warning, not an error, and not `None`). -/
theorem km_pace_zero_cex :
    kmWiseData [.num 0, .num 500, .num 1000] [] [] []
        [.num 0, .num 0, .num 0] [] =
      some [⟨1, none, none, none, some .inf, none⟩] := by
  have h0 : kmWiseData [.num 0, .num 500, .num 1000] [] [] []
      [.num 0, .num 0, .num 0] [] = some [rowCex] := rfl
  rw [h0]
  have hsel : select [PF.num 0, PF.num 0, PF.num 0]
      (maskIdx [PF.num 0, PF.num 500, PF.num 1000] 1) =
      [PF.num 0, PF.num 0] := by decide
  have hmean : nanmean [PF.num 0, PF.num 0] = PF.num 0 := by
    simp [nanmean]
  have hpace : paceField [PF.num 0, PF.num 0, PF.num 0]
      (select [PF.num 0, PF.num 0, PF.num 0]
        (maskIdx [PF.num 0, PF.num 500, PF.num 1000] 1)) = some PF.inf := by
    unfold paceField
    rw [hsel, hmean]
    rfl
  unfold rowCex
  rw [hpace]

/-- Claim C9 (amended): in every row the normalizer emits, the pace is
`(1000 / mean) / 60` when the bucket's mean velocity is a nonzero number;
it is null ONLY when the whole velocity stream is absent (empty); a zero
mean yields `+inf` and a bucket with no numeric velocity sample (stream
present) yields `NaN` - the divide-by-zero is not guarded to null. -/
theorem km_pace_guard (dist hr cad watts vel alt : List PF)
    (rows : List KmRow)
    (hrows : kmWiseData dist hr cad watts vel alt = some rows) :
    ∀ r ∈ rows,
      r.pace = paceField vel (select vel (maskIdx dist r.km)) ∧
      (vel = [] → r.pace = none) ∧
      (∀ q : ℚ, nanmean (select vel (maskIdx dist r.km)) = .num q → q ≠ 0 →
        r.pace = some (.num (1000 / q / 60))) ∧
      (nanmean (select vel (maskIdx dist r.km)) = .num 0 → vel ≠ [] →
        r.pace = some .inf) ∧
      (nanmean (select vel (maskIdx dist r.km)) = .nan → vel ≠ [] →
        r.pace = some .nan) := by
  intro r hr
  have hpace : r.pace = paceField vel (select vel (maskIdx dist r.km)) := by
    unfold kmWiseData at hrows
    by_cases hde : dist.isEmpty
    · rw [if_pos hde] at hrows
      cases hrows
      cases hr
    · rw [if_neg hde] at hrows
      cases hlast : (dist.getLast?).getD .nan with
      | nan => rw [hlast] at hrows; cases hrows
      | inf => rw [hlast] at hrows; cases hrows
      | num q =>
        rw [hlast] at hrows
        cases hrows
        simp only [List.mem_filterMap] at hr
        obtain ⟨km, hkm, hsome⟩ := hr
        by_cases hidx : (maskIdx dist km).isEmpty
        · rw [if_pos hidx] at hsome
          cases hsome
        · rw [if_neg hidx] at hsome
          cases hsome
          rfl
  refine ⟨hpace, ?_, ?_, ?_, ?_⟩
  · intro hv
    rw [hpace]
    subst hv
    rfl
  · intro q hq hq0
    rw [hpace]
    unfold paceField
    rw [hq]
    cases vel with
    | nil => simp [nanmean, select, maskIdx] at hq
    | cons v vs =>
      simp only [List.isEmpty_cons, Bool.false_eq_true, if_false]
      simp [pf1000Div, pfDiv60, hq0]
  · intro hq hv
    rw [hpace]
    unfold paceField
    rw [hq]
    rw [if_neg (by simpa [List.isEmpty_iff] using hv)]
    rfl
  · intro hq hv
    rw [hpace]
    unfold paceField
    rw [hq]
    rw [if_neg (by simpa [List.isEmpty_iff] using hv)]
    rfl

theorem km_pace_guard_witness :
    rowPos.pace = some (.num (1000 / 2 / 60)) :=
  (km_pace_guard [.num 0, .num 500, .num 1000] [] [] []
      [.num 2, .num 2, .num 2] [] [rowPos] rfl rowPos (by simp)).2.2.1 2
    (by
      rw [show select [PF.num 2, PF.num 2, PF.num 2]
          (maskIdx [PF.num 0, PF.num 500, PF.num 1000] rowPos.km) =
          [PF.num 2, PF.num 2] from by decide]
      simp [nanmean])
    (by norm_num)

